import Mathlib

/-!
Shallow embedding of the CC1101 radio driver (src/lib.rs and
src/lowlevel/mod.rs) and proofs about its register-access and
packet RX/TX protocol.

The SPI bus and GPIO lines are modelled as deterministic oracles:
a list of bytes clocked back for each status-register poll and a
list of boolean levels for the GDO2 line.  Every bus operation the
driver performs is recorded in a trace of `BusOp` values.  A Rust
panic is modelled as `Except.error` carrying the panic site; a loop
that never meets its exit condition is modelled by returning `none`
once its (finite) oracle is exhausted: the loop is still running.
-/

set_option autoImplicit false

namespace CC1101

/-- Modelled from the spec: command-strobe and FIFO addresses and the
burst flag of `lowlevel::registers` (the file is not under src/; §4.2:
command strobes occupy their own fixed address set, burst = base OR
burst-bit).  The concrete byte values are the chip's standard ones; no
claim depends on them beyond distinctness. -/
inductive Command where
  | SRES
  | SRX
  | STX
  | SIDLE
  | SFRX
  | SFTX
  | FIFO
  | BURSTFLG
  deriving DecidableEq, Repr

/-- Modelled from the spec: `Command::addr()` of `lowlevel::registers`. -/
def Command.addr : Command → Nat
  | .SRES => 0x30
  | .SRX => 0x34
  | .STX => 0x35
  | .SIDLE => 0x36
  | .SFRX => 0x3A
  | .SFTX => 0x3B
  | .FIFO => 0x3F
  | .BURSTFLG => 0x40

/-- Registers the verified operations touch (configuration register
IOCFG0 and status registers MARCSTATE, RXBYTES, LQI). -/
inductive Reg where
  | IOCFG0
  | MARCSTATE
  | RXBYTES
  | LQI
  deriving DecidableEq, Repr

/-- Modelled from the spec: write address = base address (§4.2). -/
def Reg.waddr : Reg → Nat
  | .IOCFG0 => 0x02
  | .MARCSTATE => 0x35
  | .RXBYTES => 0x3B
  | .LQI => 0x33

/-- Modelled from the spec: the machine-state status codes the driver
compares MARCSTATE against (`MachineState::value()` of
`lowlevel::types`, not under src/). -/
inductive MachineState where
  | IDLE
  | RX
  | TX
  deriving DecidableEq, Repr

/-- Modelled from the spec: each machine state's expected status code. -/
def MachineState.value : MachineState → Nat
  | .IDLE => 0x01
  | .RX => 0x0D
  | .TX => 0x13

/-- Radio operational mode (`RadioMode` of src/lib.rs). -/
inductive RadioMode where
  | Receive
  | Transmit
  | Idle
  deriving DecidableEq, Repr

/-- Modelled from the spec: `MARCSTATE(r).marc_state()` extracts the
machine-state field of the raw status byte by masking (§4.3); the
field occupies the low five bits. -/
def marc_state (r : Nat) : Nat := r % 32

/-- Modelled from the spec: `RXBYTES(r).rxfifo_overflow()` extracts the
overflow flag, the top bit of the RX byte-count status register (§4.6:
the count and the overflow flag live in the same register). -/
def rxfifo_overflow (r : Nat) : Nat := r / 128 % 2

/-- Modelled from the spec: `RXBYTES(r).num_rxbytes()` extracts the
byte count, the low seven bits of the RX byte-count status register. -/
def num_rxbytes (r : Nat) : Nat := r % 128

/-- Driver errors (`Error` of src/lib.rs; the transport is modelled as
infallible, so the Spi/Gpio variants never arise). -/
inductive RfError where
  | RxOverflow
  | CrcMismatch
  deriving DecidableEq, Repr

/-- Sites at which the driver can hit a Rust panic. -/
inductive PanicSite where
  /-- `tx_buffer[1..].copy_from_slice(payload)` in `transmit`
  (src/lib.rs line 280): slice length mismatch. -/
  | copyFromSlice
  /-- `payload_u8[1..bytes.len() + 1].copy_from_slice(&bytes)` in
  `write_burst` (src/lowlevel/mod.rs line 103): range out of bounds. -/
  | burstCopy
  deriving DecidableEq, Repr

/-- One bus-level operation performed by the driver, as observed on the
SPI wire within one chip-select-scoped transaction. -/
inductive BusOp where
  /-- `write_strobe`: a single command address byte. -/
  | strobe (c : Command)
  /-- `write_register`: write address then one data byte. -/
  | writeReg (r : Reg) (value : Nat)
  /-- `read_register`: read address then a dummy byte. -/
  | readReg (r : Reg)
  /-- `write_burst`: the exact byte sequence handed to `spi.write`. -/
  | spiWrite (bytes : List Nat)
  /-- `read_fifo`: the FIFO burst read (address byte, two status bytes,
  then the payload transfer). -/
  | fifoBurstRead
  deriving DecidableEq, Repr

/-- `Cc1101::write_burst` (src/lowlevel/mod.rs lines 93-109).  A 64-byte
local buffer is filled with the burst-write address byte followed by
`bytes`; the copy `payload_u8[1..bytes.len() + 1].copy_from_slice(&bytes)`
panics when `bytes.len() + 1 > 64`; then `spi.write(&mut
payload_u8[..bytes.len()])` puts only the first `bytes.len()` buffer
bytes on the wire. -/
def write_burst (wa : Nat) (bytes : List Nat) : Except PanicSite BusOp :=
  if bytes.length + 1 ≤ 64 then
    let payload_u8 : List Nat :=
      ((wa ||| Command.BURSTFLG.addr) :: bytes)
        ++ List.replicate (64 - (bytes.length + 1)) 0
    .ok (.spiWrite (payload_u8.take bytes.length))
  else
    .error .burstCopy

/-- `Cc1101::get_lqi` (src/lib.rs lines 97-100): mask the top bit of the
raw LQI byte, `lqi & !(1u8 << 7)` (the mask `!(1u8 << 7)` is `0x7F`). -/
def get_lqi (raw : Nat) : Nat := raw &&& 0x7F

/-- `Cc1101::await_machine_state` (src/lib.rs lines 219-227): poll the
MARCSTATE status register until `target.value() == marcstate.marc_state()`.
`polls` is the oracle of raw MARCSTATE bytes clocked back, one per loop
iteration; the result is the unconsumed oracle suffix and the trace of
register reads, or `none` when the oracle is exhausted with the loop
still running. -/
def await_machine_state (target : MachineState) :
    List Nat → Option (List Nat × List BusOp)
  | [] => none
  | p :: rest =>
    if target.value = marc_state p then
      some (rest, [.readReg .MARCSTATE])
    else
      (await_machine_state target rest).map
        (fun rt => (rt.1, .readReg Reg.MARCSTATE :: rt.2))

/-- `Cc1101::set_radio_mode` (src/lib.rs lines 171-189).  The `Receive`
and `Transmit` arms recursively call `set_radio_mode(RadioMode::Idle)`
(inlined here; `RadioMode.Idle` is not structurally smaller), then issue
the SRX/STX strobe, and the function ends with
`await_machine_state(target)`. -/
def set_radio_mode (mode : RadioMode) (polls : List Nat) :
    Option (List Nat × List BusOp) :=
  match mode with
  | .Idle =>
    match await_machine_state .IDLE polls with
    | none => none
    | some (rem, tr) => some (rem, .strobe Command.SIDLE :: tr)
  | .Receive =>
    match await_machine_state .IDLE polls with
    | none => none
    | some (rem1, tr1) =>
      match await_machine_state .RX rem1 with
      | none => none
      | some (rem2, tr2) =>
        some (rem2,
          (.strobe Command.SIDLE :: tr1) ++ .strobe Command.SRX :: tr2)
  | .Transmit =>
    match await_machine_state .IDLE polls with
    | none => none
    | some (rem1, tr1) =>
      match await_machine_state .TX rem1 with
      | none => none
      | some (rem2, tr2) =>
        some (rem2,
          (.strobe Command.SIDLE :: tr1) ++ .strobe Command.STX :: tr2)

/-- The loop body of `Cc1101::rx_bytes_available` (src/lib.rs lines
229-246), carrying the `last` variable.  `polls` is the oracle of raw
RXBYTES bytes.  `Sum.inl` is the loop finishing with a trace of RXBYTES
reads and the function's result; `Sum.inr last` means the oracle is
exhausted with the loop still running. -/
def rx_bytes_go (last : Nat) :
    List Nat → (List BusOp × Except RfError Nat) ⊕ Nat
  | [] => .inr last
  | p :: rest =>
    if rxfifo_overflow p = 1 then
      .inl ([.readReg .RXBYTES], .error .RxOverflow)
    else
      let nbytes := num_rxbytes p
      if nbytes > 0 ∧ nbytes = last then
        .inl ([.readReg .RXBYTES], .ok last)
      else
        match rx_bytes_go nbytes rest with
        | .inl tr => .inl (.readReg Reg.RXBYTES :: tr.1, tr.2)
        | .inr l => .inr l

/-- The SPI/GPIO oracle for one `receive` call: the RXBYTES poll bytes,
the two status bytes clocked back by the FIFO burst read (length and
source address), the raw LQI byte, and the MARCSTATE poll bytes. -/
structure RxEnv where
  rxPolls : List Nat
  fifoLen : Nat
  fifoAddr : Nat
  lqi : Nat
  marcPolls : List Nat
  deriving Repr

/-- `Cc1101::rx_bytes_available` (src/lib.rs lines 229-246): run the
poll loop with `last = 0`; `none` when the oracle is exhausted with the
loop still running. -/
def rx_bytes_available (polls : List Nat) :
    Option (List BusOp × Except RfError Nat) :=
  match rx_bytes_go 0 polls with
  | .inl r => some r
  | .inr _ => none

/-- `Cc1101::receive` (src/lib.rs lines 251-270): on a stable non-zero
count, one FIFO burst read, an LQI register read, `await_machine_state
(IDLE)`, the SFRX strobe, then the CRC classification of `lqi >> 7`; on
`rx_bytes_available` failing, the SFRX strobe and the error. -/
def receive (env : RxEnv) : Option (List BusOp × Except RfError Nat) :=
  match rx_bytes_available env.rxPolls with
  | none => none
  | some (tr, .error err) =>
    some (tr ++ [.strobe .SFRX], .error err)
  | some (tr, .ok _nbytes) => do
    let (_, mtr) ← await_machine_state .IDLE env.marcPolls
    some (tr ++ [.fifoBurstRead, .readReg .LQI] ++ mtr ++ [.strobe .SFRX],
      if env.lqi >>> 7 ≠ 1 then .error .CrcMismatch else .ok env.fifoLen)

/-- One of the two GDO2 line-level wait loops of `transmit` (src/lib.rs
lines 302-313): keep reading `gdo2.is_low()` until it returns `stop`
(`false` for the sync-word wait, `true` for the end-of-packet wait).
`levels` is the oracle of line levels; `none` when it is exhausted with
the loop still running. -/
def waitGdo2 (stop : Bool) : List Bool → Option (List Bool)
  | [] => none
  | x :: rest => if x = stop then some rest else waitGdo2 stop rest

/-- The SPI/GPIO oracle for one `transmit` call: the MARCSTATE poll
bytes (consumed across the four `set_radio_mode` calls) and the GDO2
`is_low()` readings. -/
structure TxEnv where
  marcPolls : List Nat
  gdo2 : List Bool
  deriving Repr

/-- `Cc1101::transmit` (src/lib.rs lines 272-333).  Outside `0 < len <
62` the body is skipped and `Ok(())` is returned with no bus operation.
Inside, after writing IOCFG0, `tx_buffer[1..].copy_from_slice(payload)`
panics unless `payload.len() == 63`; then Idle, SFTX, Receive, the FIFO
burst write of the 64-byte buffer, IOCFG0 again, Transmit, the two GDO2
waits, and Idle.  A panic (`Except.error`) discards the trace of the
operations already performed. -/
def transmit (env : TxEnv) (payload : List Nat) (len : Nat) :
    Option (Except PanicSite (List BusOp)) :=
  if 0 < len ∧ len < 62 then
    if payload.length = 63 then
      let tx_buffer : List Nat := len :: payload
      match set_radio_mode .Idle env.marcPolls with
      | none => none
      | some (polls1, tr1) =>
        match set_radio_mode .Receive polls1 with
        | none => none
        | some (polls2, tr2) =>
          match write_burst Command.FIFO.addr tx_buffer with
          | .error site => some (.error site)
          | .ok burstOp =>
            match set_radio_mode .Transmit polls2 with
            | none => none
            | some (polls3, tr3) =>
              match waitGdo2 false env.gdo2 with
              | none => none
              | some g1 =>
                match waitGdo2 true g1 with
                | none => none
                | some _ =>
                  match set_radio_mode .Idle polls3 with
                  | none => none
                  | some (_, tr4) =>
                    some (.ok ([.writeReg .IOCFG0 0x09] ++ tr1
                      ++ [.strobe .SFTX] ++ tr2 ++ [burstOp]
                      ++ [.writeReg .IOCFG0 0x06] ++ tr3 ++ tr4))
    else
      some (.error .copyFromSlice)
  else
    some (.ok [])

/-! ### Helper lemmas -/

/-- A successful `await_machine_state` call consumed a non-empty prefix
of its poll oracle, read MARCSTATE once per consumed poll, and the last
consumed poll carries the target's status code. -/
theorem await_machine_state_eq_some {t : MachineState} :
    ∀ {polls rem : List Nat} {tr : List BusOp},
      await_machine_state t polls = some (rem, tr) →
      ∃ c q, polls = c ++ rem ∧
        tr = List.replicate c.length (BusOp.readReg .MARCSTATE) ∧
        c.getLast? = some q ∧ marc_state q = t.value
  | [], _, _, h => by simp [await_machine_state] at h
  | p :: rest, rem, tr, h => by
    rw [await_machine_state] at h
    by_cases hp : t.value = marc_state p
    · rw [if_pos hp] at h
      injection h with h
      injection h with h1 h2
      subst h1
      subst h2
      exact ⟨[p], p, rfl, rfl, rfl, hp.symm⟩
    · rw [if_neg hp] at h
      rcases Option.map_eq_some'.mp h with ⟨⟨rem1, tr1⟩, hrec, heq⟩
      obtain ⟨c, q, hc, htr, hlast, hmarc⟩ := await_machine_state_eq_some hrec
      rcases c with _ | ⟨x, xs⟩
      · simp at hlast
      · cases heq
        refine ⟨p :: x :: xs, q, by simp [hc], ?_, ?_, hmarc⟩
        · simp [htr, List.replicate_succ]
        · rw [List.getLast?_cons_cons]
          exact hlast

/-- `await_machine_state` terminates exactly when some poll in the
oracle carries the target's status code. -/
theorem await_machine_state_isSome_iff (t : MachineState) :
    ∀ polls : List Nat,
      (await_machine_state t polls).isSome ↔
        ∃ p ∈ polls, marc_state p = t.value
  | [] => by simp [await_machine_state]
  | p :: rest => by
    rw [await_machine_state]
    by_cases hp : t.value = marc_state p
    · simp [if_pos hp, hp.symm]
    · rw [if_neg hp]
      rw [show (Option.map (fun rt => (rt.1, BusOp.readReg Reg.MARCSTATE :: rt.2))
            (await_machine_state t rest)).isSome
          = (await_machine_state t rest).isSome from Option.isSome_map' ..]
      rw [await_machine_state_isSome_iff t rest]
      simp only [List.mem_cons]
      constructor
      · rintro ⟨q, hq, hm⟩
        exact ⟨q, Or.inr hq, hm⟩
      · rintro ⟨q, hq | hq, hm⟩
        · exact absurd (hq ▸ hm).symm hp
        · exact ⟨q, hq, hm⟩

/-- The trace a finished `rx_bytes_go` loop produced is one RXBYTES
read per consumed poll. -/
theorem rx_bytes_go_inl_trace :
    ∀ {polls : List Nat} {last : Nat} {tr : List BusOp}
      {r : Except RfError Nat},
      rx_bytes_go last polls = .inl (tr, r) →
      ∃ k, tr = List.replicate k (BusOp.readReg .RXBYTES)
  | [], last, tr, r, h => by simp [rx_bytes_go] at h
  | p :: rest, last, tr, r, h => by
    rw [rx_bytes_go] at h
    by_cases ho : rxfifo_overflow p = 1
    · rw [if_pos ho] at h
      injection h with h
      injection h with h1 h2
      exact ⟨1, by rw [← h1]; rfl⟩
    · rw [if_neg ho] at h
      by_cases hs : num_rxbytes p > 0 ∧ num_rxbytes p = last
      · rw [if_pos hs] at h
        injection h with h
        injection h with h1 h2
        exact ⟨1, by rw [← h1]; rfl⟩
      · rw [if_neg hs] at h
        rcases hrec : rx_bytes_go (num_rxbytes p) rest with tr1 | l
        · rw [hrec] at h
          obtain ⟨k, hk⟩ := rx_bytes_go_inl_trace hrec
          cases h
          exact ⟨k + 1, by simp [hk, List.replicate_succ]⟩
        · rw [hrec] at h; cases h

/-- Splitting the poll oracle: if the loop is still running after `xs`,
it continues on `ys` with the carried `last`, and the RXBYTES reads of
`xs` stay in front of the final trace. -/
theorem rx_bytes_go_append :
    ∀ (xs : List Nat) (last : Nat) (ys : List Nat),
      rx_bytes_go last (xs ++ ys) =
        match rx_bytes_go last xs with
        | .inl r => .inl r
        | .inr l =>
          match rx_bytes_go l ys with
          | .inl tr =>
            .inl (List.replicate xs.length (BusOp.readReg .RXBYTES)
              ++ tr.1, tr.2)
          | .inr l2 => .inr l2
  | [], last, ys => by
    simp only [List.nil_append, rx_bytes_go, List.length_nil,
      List.replicate_zero]
    rcases rx_bytes_go last ys with ⟨tr, r⟩ | l <;> simp
  | x :: xs, last, ys => by
    simp only [List.cons_append, rx_bytes_go]
    by_cases ho : rxfifo_overflow x = 1
    · simp [if_pos ho]
    · rw [if_neg ho, if_neg ho]
      by_cases hs : num_rxbytes x > 0 ∧ num_rxbytes x = last
      · simp [if_pos hs]
      · rw [if_neg hs, if_neg hs]
        simp only [List.append_eq]
        rw [rx_bytes_go_append xs (num_rxbytes x) ys]
        rcases rx_bytes_go (num_rxbytes x) xs with ⟨tr, r⟩ | l
        · simp
        · rcases hys : rx_bytes_go l ys with ⟨tr2, r2⟩ | l2 <;>
            simp [hys, List.replicate_succ]

/-- For a byte, the driver's CRC test `lqi >> 7 == 1` is exactly the
top bit. -/
theorem shiftRight7_eq_one_iff_testBit {n : Nat} (h : n < 256) :
    n >>> 7 = 1 ↔ Nat.testBit n 7 := by
  rw [Nat.testBit_to_div_mod, Nat.shiftRight_eq_div_pow, decide_eq_true_eq]
  have e : (2 : Nat) ^ 7 = 128 := by norm_num
  rw [e]
  omega

/-! ### Claim theorems -/

/-- C1: the claim says `write_burst` transmits the burst-write address
followed by all `bytes.len()` data bytes.  The code instead hands
`payload_u8[..bytes.len()]` to `spi.write`: for a one-byte burst write
to the FIFO register, the single byte 0x7F (write address 0x3F OR'd
with the burst flag 0x40) is the whole wire transaction and the data
byte 0xAA is never transmitted.  The first conjunct shows it for every
one-byte burst write, the second evaluates the FIFO case. -/
theorem C1_write_burst_drops_last_data_byte :
    (∀ wa b : Nat, write_burst wa [b]
      = .ok (.spiWrite [wa ||| Command.BURSTFLG.addr])) ∧
      write_burst Command.FIFO.addr [0xAA] = .ok (.spiWrite [0x7F]) :=
  ⟨fun _ _ => rfl, rfl⟩

/-- C2: the claim describes a successful transmission for a payload of
length 10 with `len = 10`.  Evaluating the code shows that
`tx_buffer[1..].copy_from_slice(payload)` panics on the slice length
mismatch (10 versus 63) for every environment, so none of the claimed
FIFO bytes or strobes are ever issued. -/
theorem C2_transmit_len10_panics :
    ∀ env : TxEnv,
      transmit env (List.replicate 10 0xAA) 10
        = some (.error .copyFromSlice) :=
  fun _ => rfl

/-- C5: for `len = 0` or `len ≥ 62`, `transmit` performs no bus
operation at all (empty trace) and returns success. -/
theorem C5_transmit_out_of_range_is_noop :
    ∀ (env : TxEnv) (payload : List Nat) (len : Nat),
      len = 0 ∨ 62 ≤ len →
      transmit env payload len = some (.ok []) := by
  intro env payload len h
  have hc : ¬(0 < len ∧ len < 62) := by omega
  simp only [transmit]
  rw [if_neg hc]

/-- Witness for C5 at `len = 62`. -/
theorem C5_transmit_out_of_range_is_noop_witness :
    (62 = 0 ∨ 62 ≤ 62) ∧
      transmit ⟨[], []⟩ [] 62 = some (.ok []) :=
  ⟨Or.inr le_rfl,
    C5_transmit_out_of_range_is_noop ⟨[], []⟩ [] 62 (Or.inr le_rfl)⟩

/-- C7: `await_machine_state` returns success exactly when some poll of
the MARCSTATE status register reports the target's status code (so an
oracle that never reports it leaves the loop running however long it
is), and every consumed poll is a MARCSTATE register read. -/
theorem C7_await_machine_state_loop :
    ∀ (target : MachineState) (polls : List Nat),
      ((await_machine_state target polls).isSome ↔
        ∃ p ∈ polls, marc_state p = target.value) ∧
      (∀ rem tr, await_machine_state target polls = some (rem, tr) →
        ∃ c, polls = c ++ rem ∧
          tr = List.replicate c.length (BusOp.readReg .MARCSTATE)) := by
  intro target polls
  refine ⟨await_machine_state_isSome_iff target polls, ?_⟩
  intro rem tr h
  obtain ⟨c, q, hc, htr, _, _⟩ := await_machine_state_eq_some h
  exact ⟨c, hc, htr⟩

/-- Witness for C7 on the one-poll oracle `[1]` with target IDLE. -/
theorem C7_await_machine_state_loop_witness :
    (await_machine_state .IDLE [1]).isSome ∧
      (∃ c, [1] = c ++ ([] : List Nat) ∧
        [BusOp.readReg Reg.MARCSTATE]
          = List.replicate c.length (BusOp.readReg .MARCSTATE)) :=
  ⟨(C7_await_machine_state_loop .IDLE [1]).1.mpr ⟨1, by decide, by decide⟩,
    (C7_await_machine_state_loop .IDLE [1]).2 []
      [BusOp.readReg Reg.MARCSTATE] (by decide)⟩

/-- C8: `get_lqi` returns the raw LQI byte with the top bit masked off
(the low 7-bit quality score), and on the raw byte 0x85 it returns
0x05. -/
theorem C8_get_lqi_masks_top_bit :
    (∀ raw : Nat, get_lqi raw = raw % 128) ∧ get_lqi 0x85 = 0x05 := by
  constructor
  · intro raw
    have h := Nat.and_pow_two_sub_one_eq_mod raw 7
    norm_num at h
    exact h
  · rfl

/-- C4: when a poll of the RXBYTES status register reports the overflow
bit while the loop is still running (no stable non-zero count seen over
the earlier polls), `receive` returns the RxOverflow error and still
issues the RX-FIFO flush strobe, as the last bus operation before
returning. -/
theorem C4_receive_overflow_still_flushes :
    ∀ (env : RxEnv) (pre rest : List Nat) (p l : Nat),
      env.rxPolls = pre ++ p :: rest →
      rx_bytes_go 0 pre = .inr l →
      rxfifo_overflow p = 1 →
      receive env
        = some (List.replicate (pre.length + 1) (BusOp.readReg .RXBYTES)
            ++ [.strobe .SFRX], .error .RxOverflow) ∧
      BusOp.strobe Command.SFRX
        ∈ List.replicate (pre.length + 1) (BusOp.readReg Reg.RXBYTES)
          ++ [BusOp.strobe Command.SFRX] := by
  intro env pre rest p l h1 h2 h3
  have hgo : rx_bytes_go 0 env.rxPolls
      = .inl (List.replicate (pre.length + 1) (BusOp.readReg .RXBYTES),
          .error .RxOverflow) := by
    rw [h1, rx_bytes_go_append pre 0 (p :: rest), h2]
    simp [rx_bytes_go, h3, List.replicate_succ']
  refine ⟨?_, by simp⟩
  simp only [receive, rx_bytes_available, hgo]

/-- Witness for C4: the one-poll oracle `[128]` (overflow bit set on
the first poll). -/
theorem C4_receive_overflow_still_flushes_witness :
    receive ⟨[128], 0, 0, 0, []⟩
      = some ([BusOp.readReg Reg.RXBYTES, BusOp.strobe Command.SFRX],
          .error .RxOverflow) ∧
      BusOp.strobe Command.SFRX
        ∈ [BusOp.readReg Reg.RXBYTES, BusOp.strobe Command.SFRX] :=
  C4_receive_overflow_still_flushes ⟨[128], 0, 0, 0, []⟩ [] [] 128 0
    rfl rfl (by decide)

/-- C3: on a stable non-zero RXBYTES count with no overflow, `receive`
performs exactly one FIFO burst read, then reads the LQI register,
waits for the IDLE machine state, issues the RX-FIFO flush strobe, and
returns the length byte from the burst read when the LQI top bit is 1
or the CrcMismatch error when it is 0. -/
theorem C3_receive_stable_count_classifies_crc :
    ∀ (env : RxEnv) (tr : List BusOp) (n : Nat) (rem : List Nat)
      (mtr : List BusOp),
      env.lqi < 256 →
      rx_bytes_go 0 env.rxPolls = .inl (tr, .ok n) →
      await_machine_state .IDLE env.marcPolls = some (rem, mtr) →
      receive env
        = some (tr ++ [.fifoBurstRead, .readReg .LQI] ++ mtr
            ++ [.strobe .SFRX],
            if Nat.testBit env.lqi 7 then .ok env.fifoLen
            else .error .CrcMismatch) ∧
      (tr ++ [BusOp.fifoBurstRead, BusOp.readReg Reg.LQI] ++ mtr
          ++ [BusOp.strobe Command.SFRX]).count BusOp.fifoBurstRead = 1 := by
  intro env tr n rem mtr hlqi hgo hawait
  constructor
  · by_cases hb : Nat.testBit env.lqi 7
    · have h1 : env.lqi >>> 7 = 1 :=
        (shiftRight7_eq_one_iff_testBit hlqi).mpr hb
      simp [receive, rx_bytes_available, hgo, hawait, h1, hb]
    · have h1 : ¬(env.lqi >>> 7 = 1) := fun hh =>
        hb ((shiftRight7_eq_one_iff_testBit hlqi).mp hh)
      simp [receive, rx_bytes_available, hgo, hawait, h1, hb]
  · obtain ⟨k, hk⟩ := rx_bytes_go_inl_trace hgo
    obtain ⟨c, q, _, hmtr, _, _⟩ := await_machine_state_eq_some hawait
    rw [hk, hmtr]
    simp [List.count_append, List.count_replicate, List.count_cons,
      List.count_nil]

/-- Witness for C3: polls 0, 4, 4 (stable), FIFO length byte 4, raw
LQI 0x85 (CRC ok), one IDLE poll. -/
theorem C3_receive_stable_count_classifies_crc_witness :
    receive ⟨[0, 4, 4], 4, 9, 0x85, [1]⟩
      = some ([BusOp.readReg Reg.RXBYTES, BusOp.readReg Reg.RXBYTES,
          BusOp.readReg Reg.RXBYTES]
          ++ [.fifoBurstRead, .readReg .LQI]
          ++ [BusOp.readReg Reg.MARCSTATE] ++ [.strobe .SFRX],
          if Nat.testBit 0x85 7 then .ok 4 else .error .CrcMismatch) ∧
      (([BusOp.readReg Reg.RXBYTES, BusOp.readReg Reg.RXBYTES,
          BusOp.readReg Reg.RXBYTES]
          ++ [BusOp.fifoBurstRead, BusOp.readReg Reg.LQI]
          ++ [BusOp.readReg Reg.MARCSTATE]
          ++ [BusOp.strobe Command.SFRX]).count
        BusOp.fifoBurstRead = 1) :=
  C3_receive_stable_count_classifies_crc ⟨[0, 4, 4], 4, 9, 0x85, [1]⟩
    [BusOp.readReg Reg.RXBYTES, BusOp.readReg Reg.RXBYTES,
      BusOp.readReg Reg.RXBYTES] 4 []
    [BusOp.readReg Reg.MARCSTATE] (by decide) rfl rfl

/-- C6: a `set_radio_mode` call requesting Receive or Transmit first
issues the SIDLE strobe and polls MARCSTATE until the last consumed
poll confirms the IDLE status code, and only then issues the SRX or STX
strobe for the requested target. -/
theorem C6_mode_change_goes_through_idle :
    ∀ (mode : RadioMode) (polls rem : List Nat) (tr : List BusOp),
      mode = .Receive ∨ mode = .Transmit →
      set_radio_mode mode polls = some (rem, tr) →
      ∃ (c : List Nat) (q : Nat) (tr2 : List BusOp),
        tr = .strobe Command.SIDLE ::
          (List.replicate c.length (BusOp.readReg .MARCSTATE)
            ++ (.strobe (if mode = RadioMode.Receive then Command.SRX
                else Command.STX) :: tr2)) ∧
        c.getLast? = some q ∧ marc_state q = MachineState.IDLE.value := by
  intro mode polls rem tr hmode h
  rcases hmode with rfl | rfl
  · rcases hI : await_machine_state .IDLE polls with _ | ⟨rem1, tr1⟩
    · simp only [set_radio_mode, hI] at h
      exact Option.noConfusion h
    · rcases hR : await_machine_state .RX rem1 with _ | ⟨rem2, tr2⟩
      · simp only [set_radio_mode, hI, hR] at h
        exact Option.noConfusion h
      · simp only [set_radio_mode, hI, hR] at h
        injection h with h
        injection h with hrem htr
        obtain ⟨c, q, _, htr1, hlast, hmarc⟩ := await_machine_state_eq_some hI
        refine ⟨c, q, tr2, ?_, hlast, hmarc⟩
        rw [← htr, htr1]
        simp
  · rcases hI : await_machine_state .IDLE polls with _ | ⟨rem1, tr1⟩
    · simp only [set_radio_mode, hI] at h
      exact Option.noConfusion h
    · rcases hR : await_machine_state .TX rem1 with _ | ⟨rem2, tr2⟩
      · simp only [set_radio_mode, hI, hR] at h
        exact Option.noConfusion h
      · simp only [set_radio_mode, hI, hR] at h
        injection h with h
        injection h with hrem htr
        obtain ⟨c, q, _, htr1, hlast, hmarc⟩ := await_machine_state_eq_some hI
        refine ⟨c, q, tr2, ?_, hlast, hmarc⟩
        rw [← htr, htr1]
        simp

/-- Witness for C6: requesting Receive with poll oracle `[1, 13]`
(IDLE confirmed, then RX confirmed). -/
theorem C6_mode_change_goes_through_idle_witness :
    ∃ (c : List Nat) (q : Nat) (tr2 : List BusOp),
      ([BusOp.strobe Command.SIDLE, BusOp.readReg Reg.MARCSTATE,
          BusOp.strobe Command.SRX, BusOp.readReg Reg.MARCSTATE]
        : List BusOp)
        = .strobe Command.SIDLE ::
          (List.replicate c.length (BusOp.readReg .MARCSTATE)
            ++ (.strobe (if RadioMode.Receive = RadioMode.Receive
                then Command.SRX else Command.STX) :: tr2)) ∧
        c.getLast? = some q ∧ marc_state q = MachineState.IDLE.value :=
  C6_mode_change_goes_through_idle .Receive [1, 13] []
    [BusOp.strobe Command.SIDLE, BusOp.readReg Reg.MARCSTATE,
      BusOp.strobe Command.SRX, BusOp.readReg Reg.MARCSTATE]
    (Or.inl rfl) (by decide)

/-- C9: `write_burst` panics (range out of bounds on the copy into the
fixed 64-byte local buffer) for every byte slice of length 64 or more;
and `transmit`, which always passes its 64-byte local buffer, reaches
that panic whenever its own guards let it get there (valid `len`,
63-byte payload, and terminating radio-mode transitions). -/
theorem C9_write_burst_64_bytes_panics :
    (∀ (wa : Nat) (bytes : List Nat), 64 ≤ bytes.length →
      write_burst wa bytes = .error .burstCopy) ∧
    (∀ (env : TxEnv) (payload : List Nat) (len : Nat)
        (p1 p2 : List Nat) (t1 t2 : List BusOp),
      0 < len → len < 62 → payload.length = 63 →
      set_radio_mode .Idle env.marcPolls = some (p1, t1) →
      set_radio_mode .Receive p1 = some (p2, t2) →
      transmit env payload len = some (.error .burstCopy)) := by
  constructor
  · intro wa bytes hlen
    rw [write_burst, if_neg (by omega)]
  · intro env payload len p1 p2 t1 t2 h1 h2 h3 h4 h5
    have hwb : write_burst Command.FIFO.addr (len :: payload)
        = .error .burstCopy := by
      rw [write_burst, if_neg (by simp only [List.length_cons, h3]; omega)]
    simp only [transmit]
    rw [if_pos (show 0 < len ∧ len < 62 from ⟨h1, h2⟩), if_pos h3]
    simp only [h4, h5, hwb]

/-- Witness for C9: a 64-byte slice, and a transmit call with `len =
10`, a 63-byte payload, and poll oracle `[1, 1, 13]` (IDLE, then IDLE
and RX for the Receive transition). -/
theorem C9_write_burst_64_bytes_panics_witness :
    write_burst 0x3F (List.replicate 64 0) = .error .burstCopy ∧
      transmit ⟨[1, 1, 13], []⟩ (List.replicate 63 0) 10
        = some (.error .burstCopy) :=
  ⟨C9_write_burst_64_bytes_panics.1 0x3F (List.replicate 64 0) (by decide),
    C9_write_burst_64_bytes_panics.2 ⟨[1, 1, 13], []⟩
      (List.replicate 63 0) 10 [1, 13] []
      [BusOp.strobe Command.SIDLE, BusOp.readReg Reg.MARCSTATE]
      [BusOp.strobe Command.SIDLE, BusOp.readReg Reg.MARCSTATE,
        BusOp.strobe Command.SRX, BusOp.readReg Reg.MARCSTATE]
      (by decide) (by decide) (by decide) rfl rfl⟩

/-- C10: inside the `0 < len < 62` guard, the copy of the payload into
the tail of the 64-byte local buffer panics (slice length mismatch)
whenever the payload slice is not exactly 63 bytes long, regardless of
`len`; only a 63-byte payload gets past this copy. -/
theorem C10_transmit_copy_needs_63_byte_payload :
    ∀ (env : TxEnv) (payload : List Nat) (len : Nat),
      0 < len → len < 62 →
      (payload.length ≠ 63 →
        transmit env payload len = some (.error .copyFromSlice)) ∧
      (payload.length = 63 →
        transmit env payload len ≠ some (.error .copyFromSlice)) := by
  intro env payload len h1 h2
  constructor
  · intro hne
    simp only [transmit]
    rw [if_pos (show 0 < len ∧ len < 62 from ⟨h1, h2⟩), if_neg hne]
  · intro heq
    have hwb : write_burst Command.FIFO.addr (len :: payload)
        = .error .burstCopy := by
      rw [write_burst, if_neg (by simp only [List.length_cons, heq]; omega)]
    simp only [transmit]
    rw [if_pos (show 0 < len ∧ len < 62 from ⟨h1, h2⟩), if_pos heq]
    rcases hI : set_radio_mode .Idle env.marcPolls with _ | ⟨p1, t1⟩
    · simp [hI]
    · rcases hR : set_radio_mode .Receive p1 with _ | ⟨p2, t2⟩
      · simp [hI, hR]
      · simp [hI, hR, hwb]

/-- Witness for C10: `len = 10` with a 10-byte payload panics at the
copy. -/
theorem C10_transmit_copy_needs_63_byte_payload_witness :
    transmit ⟨[], []⟩ (List.replicate 10 0) 10
      = some (.error .copyFromSlice) :=
  (C10_transmit_copy_needs_63_byte_payload ⟨[], []⟩ (List.replicate 10 0)
    10 (by decide) (by decide)).1 (by decide)

end CC1101
